import Mathlib

/-
Verification of the BlackBone `Thread` class (src/BlackBone/Process/Threads/Thread.h)
against its specification. Handles and pointers are modelled as `Nat` with `0` for
`NULL`; `DWORD` values are `Nat`. Operations whose bodies are not in the header are
modelled from the spec and marked as such in their doc comments.
-/

namespace blackbone

/-- The Windows `STILL_ACTIVE` exit-code sentinel (numeric value of STATUS_PENDING). -/
def STILL_ACTIVE : Nat := 259

/-- The `Thread` object's data members (Thread.h lines 224-227):
`_core` (opaque owning-process pointer), `_id` (thread id), `_handle`
(thread handle, `0` for `NULL`). -/
structure ThreadObj where
  core : Nat
  id : Nat
  handle : Nat
deriving DecidableEq, Repr

/-- A store of `Thread` objects addressed by references of type `ρ`; two C++
references may alias, which a plain pair model cannot express. -/
abbrev Store (ρ : Type) := ρ → ThreadObj

/-- Overwrite the object referred to by `r`. -/
def Store.write {ρ : Type} [DecidableEq ρ] (s : Store ρ) (r : ρ) (v : ThreadObj) :
    Store ρ :=
  fun x => if x = r then v else s x

/-- `Thread::ReleaseHandle` (Thread.h line 221): `_handle = NULL`. -/
def Thread.ReleaseHandle (t : ThreadObj) : ThreadObj := { t with handle := 0 }

/-- `Thread::operator=` (Thread.h lines 204-214): field-by-field copy
`_id = other._id; _core = other._core; _handle = other._handle;` followed by
`other.ReleaseHandle()`. Executed over a store so that `this` and `other`
may alias (self-assignment). -/
def Thread.opAssign {ρ : Type} [DecidableEq ρ] (s : Store ρ) (self other : ρ) :
    Store ρ :=
  let s1 := Store.write s self { s self with id := (s other).id }
  let s2 := Store.write s1 self { s1 self with core := (s1 other).core }
  let s3 := Store.write s2 self { s2 self with handle := (s2 other).handle }
  Store.write s3 other (Thread.ReleaseHandle (s3 other))

/-- `Thread::operator==` (Thread.h line 202): `_id == other._id`. -/
def Thread.opEq (a b : ThreadObj) : Bool := a.id == b.id

/-- Modelled from the spec: the body of `Thread::ExitCode` is not in the header.
Per the spec it returns the thread's exit code, or the "still running" sentinel
while the thread is live; `exited = some code` means the thread has exited. -/
def Thread.ExitCode (exited : Option Nat) : Nat :=
  match exited with
  | some code => code
  | none => STILL_ACTIVE

/-- `Thread::valid` (Thread.h line 68):
`_handle != NULL && ExitCode() == STILL_ACTIVE`. -/
def Thread.valid (t : ThreadObj) (exited : Option Nat) : Bool :=
  (t.handle != 0) && (Thread.ExitCode exited == STILL_ACTIVE)

/-- Breakpoint type (Thread.h lines 25-30). -/
inductive HWBPType where
  | hwbp_access
  | hwbp_write
  | hwbp_execute
deriving DecidableEq, Repr

/-- Numeric enum values from Thread.h: `hwbp_access = 3`, `hwbp_write = 1`,
`hwbp_execute = 0`. -/
def HWBPType.val : HWBPType → Nat
  | .hwbp_access => 3
  | .hwbp_write => 1
  | .hwbp_execute => 0

/-- Breakpoint length (Thread.h lines 32-38). -/
inductive HWBPLength where
  | hwbp_1
  | hwbp_2
  | hwbp_4
  | hwbp_8
deriving DecidableEq, Repr

/-- Numeric enum values from Thread.h: `hwbp_1 = 0`, `hwbp_2 = 1`, `hwbp_4 = 3`,
`hwbp_8 = 2`. -/
def HWBPLength.val : HWBPLength → Nat
  | .hwbp_1 => 0
  | .hwbp_2 => 1
  | .hwbp_4 => 3
  | .hwbp_8 => 2

/-- Number of bytes watched by a breakpoint of the given length. -/
def HWBPLength.bytes : HWBPLength → Nat
  | .hwbp_1 => 1
  | .hwbp_2 => 2
  | .hwbp_4 => 4
  | .hwbp_8 => 8

/-- An occupied hardware-breakpoint slot: `(address, type, length)`. -/
structure HWBPSlot where
  addr : Nat
  type : HWBPType
  length : HWBPLength
deriving DecidableEq, Repr

/-- The four debug-register slots; `none` is a free slot. -/
structure HWBPState where
  d0 : Option HWBPSlot
  d1 : Option HWBPSlot
  d2 : Option HWBPSlot
  d3 : Option HWBPSlot
deriving DecidableEq, Repr

def HWBPState.empty : HWBPState := ⟨none, none, none, none⟩

def HWBPState.get (s : HWBPState) : Nat → Option HWBPSlot
  | 0 => s.d0
  | 1 => s.d1
  | 2 => s.d2
  | _ => s.d3

def HWBPState.set (s : HWBPState) : Nat → Option HWBPSlot → HWBPState
  | 0, v => { s with d0 := v }
  | 1, v => { s with d1 := v }
  | 2, v => { s with d2 := v }
  | _, v => { s with d3 := v }

/-- Lowest free slot index, or `none` when all four are occupied. -/
def HWBPState.freeIndex (s : HWBPState) : Option Nat :=
  if s.d0 = none then some 0
  else if s.d1 = none then some 1
  else if s.d2 = none then some 2
  else if s.d3 = none then some 3
  else none

/-- Effective breakpoint length: execute-type breakpoints are forced to one byte
per the hardware constraint. -/
def effLength (ty : HWBPType) (len : HWBPLength) : HWBPLength :=
  match ty with
  | .hwbp_execute => .hwbp_1
  | _ => len

/-- Modelled from the spec: the body of `Thread::AddHWBP` is not in the header.
Per the spec it selects a free slot among 4 (execute type forces length = 1 byte),
returning the slot index, or -1 when the address is misaligned for the requested
length or no slot is free; on success the slot stores `(addr, type, length)`. -/
def Thread.AddHWBP (addr : Nat) (ty : HWBPType) (len : HWBPLength)
    (s : HWBPState) : Int × HWBPState :=
  if addr % (effLength ty len).bytes ≠ 0 then (-1, s)
  else
    match s.freeIndex with
    | none => (-1, s)
    | some i => (Int.ofNat i, s.set i (some ⟨addr, ty, effLength ty len⟩))

/-- Modelled from the spec: the body of `Thread::RemoveHWBP(int)` is not in the
header. Per the spec it clears the slot's enable bit and frees the index for
reuse; removing an already-free slot is a no-op success. -/
def Thread.RemoveHWBP (idx : Int) (s : HWBPState) : Bool × HWBPState :=
  if 0 ≤ idx ∧ idx ≤ 3 then (true, s.set idx.toNat none) else (false, s)

/-- Does this slot hold a breakpoint at address `ptr`? -/
def matchesAddr (o : Option HWBPSlot) (ptr : Nat) : Bool :=
  match o with
  | some sl => sl.addr == ptr
  | none => false

/-- Modelled from the spec: the body of `Thread::RemoveHWBP(ptr_t)` is not in the
header. Per the spec, removal by address locates the occupied slot whose stored
address matches, clears it, or reports failure when none matches. -/
def Thread.RemoveHWBPAddr (ptr : Nat) (s : HWBPState) : Bool × HWBPState :=
  if matchesAddr s.d0 ptr then (true, { s with d0 := none })
  else if matchesAddr s.d1 ptr then (true, { s with d1 := none })
  else if matchesAddr s.d2 ptr then (true, { s with d2 := none })
  else if matchesAddr s.d3 ptr then (true, { s with d3 := none })
  else (false, s)

/-- Local-enable bit for a slot: 1 when occupied. -/
def enableBit (o : Option HWBPSlot) : Nat :=
  match o with
  | some _ => 1
  | none => 0

/-- The slot's 2 type bits as packed into the debug-control register. -/
def typeBits (o : Option HWBPSlot) : Nat :=
  match o with
  | some sl => sl.type.val
  | none => 0

/-- The slot's 2 length bits as packed into the debug-control register. -/
def lengthBits (o : Option HWBPSlot) : Nat :=
  match o with
  | some sl => sl.length.val
  | none => 0

/-- The slot's 4-bit type+length field: 2 bits of type, then 2 bits of length. -/
def slotField (o : Option HWBPSlot) : Nat := typeBits o + 4 * lengthBits o

/-- Modelled from the spec: the debug-control (DR7) register packing is performed
by the `AddHWBP` body, which is not in the header. Per the spec and the hardware
contract, slot `i` contributes a local-enable bit at bit `2*i`, 2 bits of type at
bits `16 + 4*i`, and 2 bits of length at bits `18 + 4*i`. -/
def encodeDR7 (s : HWBPState) : Nat :=
  enableBit s.d0 + 4 * enableBit s.d1 + 16 * enableBit s.d2 + 64 * enableBit s.d3
    + 65536 * (slotField s.d0 + 16 * slotField s.d1 + 256 * slotField s.d2
        + 4096 * slotField s.d3)

/-- C1: after `a = b` with `a` and `b` distinct, `a.handle()` is the previous value
of `b.handle()` and `b.handle()` is `NULL`. -/
theorem assign_transfers_handle {ρ : Type} [DecidableEq ρ] (s : Store ρ) (a b : ρ)
    (hab : a ≠ b) :
    (Thread.opAssign s a b a).handle = (s b).handle ∧
    (Thread.opAssign s a b b).handle = 0 := by
  simp [Thread.opAssign, Store.write, Thread.ReleaseHandle, hab, Ne.symm hab]

def c1store : Store Bool := fun r => if r then ⟨0, 1, 10⟩ else ⟨7, 2, 20⟩

/-- Witness for C1 at a concrete two-object store. -/
theorem assign_transfers_handle_witness :
    (Thread.opAssign c1store true false true).handle = (c1store false).handle ∧
    (Thread.opAssign c1store true false false).handle = 0 :=
  assign_transfers_handle c1store true false (by decide)

def c2store : Store Bool := fun r => if r then ⟨0, 1, 10⟩ else ⟨7, 2, 20⟩

/-- C2 counterexample: `id()` does change under copy-assignment. With `a.id() = 1`
and `b.id() = 2`, after `a = b` the value of `a.id()` is no longer `1`. -/
theorem assign_changes_id_counterexample :
    (Thread.opAssign c2store true false true).id ≠ (c2store true).id := by
  decide

/-- C2 amended: `id()` is unchanged by every modelled operation except
copy-assignment, whose destination takes the source's id; every object other than
the assignment destination keeps its id, and `ReleaseHandle` never changes an id. -/
theorem assign_id_semantics {ρ : Type} [DecidableEq ρ] (s : Store ρ) (a b r : ρ) :
    (Thread.opAssign s a b r).id = (if r = a then (s b).id else (s r).id) ∧
    (Thread.ReleaseHandle (s r)).id = (s r).id := by
  refine ⟨?_, rfl⟩
  simp only [Thread.opAssign, Store.write, Thread.ReleaseHandle]
  by_cases hra : r = a <;> by_cases hrb : r = b <;> by_cases hba : b = a <;>
    simp_all

/-- C10: self-assignment `a = a` on an object holding a non-null handle leaves the
handle `NULL`: the handle is copied onto itself and then the source — the same
object — is released. -/
theorem self_assign_loses_handle {ρ : Type} [DecidableEq ρ] (s : Store ρ) (a : ρ)
    (h : (s a).handle ≠ 0) :
    (Thread.opAssign s a a a).handle = 0 := by
  simp [Thread.opAssign, Store.write, Thread.ReleaseHandle]

def c10store : Store Bool := fun _ => ⟨0, 5, 42⟩

/-- Witness for C10 at a concrete object with handle 42. -/
theorem self_assign_loses_handle_witness :
    (Thread.opAssign c10store true true true).handle = 0 :=
  self_assign_loses_handle c10store true (by decide)

/-- C9: `operator==` compares by thread id only: `a == b` iff `a.id() == b.id()`,
ignoring handle and owning-process pointer. -/
theorem opEq_iff_id (a b : ThreadObj) :
    Thread.opEq a b = true ↔ a.id = b.id := by
  simp [Thread.opEq]

/-- C3: `valid()` is true iff the handle is non-null and `ExitCode()` is the
`STILL_ACTIVE` sentinel. -/
theorem valid_iff (t : ThreadObj) (exited : Option Nat) :
    Thread.valid t exited = true ↔
      (t.handle ≠ 0 ∧ Thread.ExitCode exited = STILL_ACTIVE) := by
  simp [Thread.valid]

/-- OS-visible effects of the context operations: the thread's suspend count and
how many suspend/resume calls were issued. -/
structure CtxOS where
  suspendCount : Nat
  suspendCalls : Nat
  resumeCalls : Nat
deriving DecidableEq, Repr

/-- One OS suspend call: increments the suspend count. -/
def CtxOS.suspend (s : CtxOS) : CtxOS :=
  { s with suspendCount := s.suspendCount + 1, suspendCalls := s.suspendCalls + 1 }

/-- One OS resume call: decrements the suspend count. -/
def CtxOS.resume (s : CtxOS) : CtxOS :=
  { s with suspendCount := s.suspendCount - 1, resumeCalls := s.resumeCalls + 1 }

/-- Modelled from the spec: the body of `Thread::GetContext` is not in the header.
Per the spec: (1) if `dontSuspend` is false, suspend the thread; (2) perform the
OS get-context call — `ctxOk` is its result — and on failure still attempt to
resume before returning false; (3) if the thread was suspended by this call,
resume it; (4) return the underlying result. -/
def Thread.GetContext (ctxOk : Bool) (dontSuspend : Bool) (s : CtxOS) :
    Bool × CtxOS :=
  let s1 := if dontSuspend then s else s.suspend
  if ctxOk then
    (true, if dontSuspend then s1 else s1.resume)
  else
    (false, if dontSuspend then s1 else s1.resume)

/-- Modelled from the spec: the body of `Thread::SetContext` is not in the header;
it follows the same suspend / OS set-context call / resume sequence as
`Thread.GetContext`, with `ctxOk` the OS call's result. -/
def Thread.SetContext (ctxOk : Bool) (dontSuspend : Bool) (s : CtxOS) :
    Bool × CtxOS :=
  let s1 := if dontSuspend then s else s.suspend
  if ctxOk then
    (true, if dontSuspend then s1 else s1.resume)
  else
    (false, if dontSuspend then s1 else s1.resume)

lemma freeIndex_le (s : HWBPState) (i : Nat) (h : s.freeIndex = some i) : i ≤ 3 := by
  unfold HWBPState.freeIndex at h
  split_ifs at h <;> simp_all <;> omega

lemma get_set (s : HWBPState) (i : Nat) (v : Option HWBPSlot) (h : i ≤ 3) :
    (s.set i v).get i = v := by
  interval_cases i <;> rfl

lemma enableBit_le (o : Option HWBPSlot) : enableBit o ≤ 1 := by
  cases o <;> simp [enableBit]

lemma typeBits_le (o : Option HWBPSlot) : typeBits o ≤ 3 := by
  cases o with
  | none => simp [typeBits]
  | some sl => cases h : sl.type <;> simp [typeBits, HWBPType.val, h]

lemma lengthBits_le (o : Option HWBPSlot) : lengthBits o ≤ 3 := by
  cases o with
  | none => simp [lengthBits]
  | some sl => cases h : sl.length <;> simp [lengthBits, HWBPLength.val, h]

/-- C4: every non-failure return value of `AddHWBP` lies in `[0,3]`; starting from
all-free slots, four calls return the four distinct indices 0, 1, 2, 3, a fifth
call returns -1, and after `RemoveHWBP 2` succeeds a subsequent `AddHWBP`
returns index 2 again. -/
theorem addHWBP_slot_allocation :
    (∀ (addr : Nat) (ty : HWBPType) (len : HWBPLength) (s : HWBPState),
      (Thread.AddHWBP addr ty len s).1 ≠ -1 →
        0 ≤ (Thread.AddHWBP addr ty len s).1 ∧
          (Thread.AddHWBP addr ty len s).1 ≤ 3) ∧
    ((Thread.AddHWBP 4096 .hwbp_write .hwbp_4 HWBPState.empty).1 = 0 ∧
      (Thread.AddHWBP 8192 .hwbp_write .hwbp_4
        (Thread.AddHWBP 4096 .hwbp_write .hwbp_4 HWBPState.empty).2).1 = 1 ∧
      (Thread.AddHWBP 12288 .hwbp_write .hwbp_4
        (Thread.AddHWBP 8192 .hwbp_write .hwbp_4
          (Thread.AddHWBP 4096 .hwbp_write .hwbp_4 HWBPState.empty).2).2).1 = 2 ∧
      (Thread.AddHWBP 16384 .hwbp_write .hwbp_4
        (Thread.AddHWBP 12288 .hwbp_write .hwbp_4
          (Thread.AddHWBP 8192 .hwbp_write .hwbp_4
            (Thread.AddHWBP 4096 .hwbp_write .hwbp_4 HWBPState.empty).2).2).2).1
        = 3 ∧
      (Thread.AddHWBP 20480 .hwbp_write .hwbp_4
        (Thread.AddHWBP 16384 .hwbp_write .hwbp_4
          (Thread.AddHWBP 12288 .hwbp_write .hwbp_4
            (Thread.AddHWBP 8192 .hwbp_write .hwbp_4
              (Thread.AddHWBP 4096 .hwbp_write .hwbp_4 HWBPState.empty).2).2).2).2).1
        = -1 ∧
      (Thread.RemoveHWBP 2
        (Thread.AddHWBP 16384 .hwbp_write .hwbp_4
          (Thread.AddHWBP 12288 .hwbp_write .hwbp_4
            (Thread.AddHWBP 8192 .hwbp_write .hwbp_4
              (Thread.AddHWBP 4096 .hwbp_write .hwbp_4 HWBPState.empty).2).2).2).2).1
        = true ∧
      (Thread.AddHWBP 20480 .hwbp_write .hwbp_4
        (Thread.RemoveHWBP 2
          (Thread.AddHWBP 16384 .hwbp_write .hwbp_4
            (Thread.AddHWBP 12288 .hwbp_write .hwbp_4
              (Thread.AddHWBP 8192 .hwbp_write .hwbp_4
                (Thread.AddHWBP 4096 .hwbp_write .hwbp_4
                  HWBPState.empty).2).2).2).2).2).1 = 2) := by
  constructor
  · intro addr ty len s h
    unfold Thread.AddHWBP at h ⊢
    split_ifs at h ⊢ with hal
    · simp at h
    · cases hfi : s.freeIndex with
      | none => rw [hfi] at h; simp at h
      | some i =>
        have hle := freeIndex_le s i hfi
        show 0 ≤ Int.ofNat i ∧ Int.ofNat i ≤ 3
        exact ⟨Int.ofNat_nonneg i, Int.ofNat_le.mpr hle⟩
  · decide

/-- Witness for C4: the range bound instantiated at the first concrete call. -/
theorem addHWBP_slot_allocation_witness :
    0 ≤ (Thread.AddHWBP 4096 HWBPType.hwbp_write HWBPLength.hwbp_4
        HWBPState.empty).1 ∧
      (Thread.AddHWBP 4096 HWBPType.hwbp_write HWBPLength.hwbp_4
        HWBPState.empty).1 ≤ 3 :=
  addHWBP_slot_allocation.1 4096 HWBPType.hwbp_write HWBPLength.hwbp_4
    HWBPState.empty (by decide)

/-- C5: an execute-type breakpoint is stored with length forced to 1 byte
(`hwbp_1`), whose encoded length bit-pattern is 0, whatever length was
requested. -/
theorem addHWBP_execute_length_one (addr : Nat) (len : HWBPLength) (s : HWBPState)
    (h : (Thread.AddHWBP addr HWBPType.hwbp_execute len s).1 ≠ -1) :
    (Thread.AddHWBP addr HWBPType.hwbp_execute len s).2.get
        (Thread.AddHWBP addr HWBPType.hwbp_execute len s).1.toNat
      = some ⟨addr, HWBPType.hwbp_execute, HWBPLength.hwbp_1⟩ ∧
    HWBPLength.val HWBPLength.hwbp_1 = 0 := by
  unfold Thread.AddHWBP at h ⊢
  have hal : ¬ addr % (effLength HWBPType.hwbp_execute len).bytes ≠ 0 := by
    simp [effLength, HWBPLength.bytes, Nat.mod_one]
  rw [if_neg hal] at h ⊢
  cases hfi : s.freeIndex with
  | none => rw [hfi] at h; simp at h
  | some i =>
    have hle := freeIndex_le s i hfi
    refine ⟨?_, rfl⟩
    show (s.set i (some ⟨addr, HWBPType.hwbp_execute, HWBPLength.hwbp_1⟩)).get
        (Int.ofNat i).toNat
      = some ⟨addr, HWBPType.hwbp_execute, HWBPLength.hwbp_1⟩
    have hit : (Int.ofNat i).toNat = i := rfl
    rw [hit]
    exact get_set s i (some ⟨addr, HWBPType.hwbp_execute, HWBPLength.hwbp_1⟩) hle

/-- Witness for C5 at a concrete call on the empty state. -/
theorem addHWBP_execute_length_one_witness :
    (Thread.AddHWBP 4096 HWBPType.hwbp_execute HWBPLength.hwbp_8
        HWBPState.empty).2.get
        (Thread.AddHWBP 4096 HWBPType.hwbp_execute HWBPLength.hwbp_8
          HWBPState.empty).1.toNat
      = some ⟨4096, HWBPType.hwbp_execute, HWBPLength.hwbp_1⟩ ∧
    HWBPLength.val HWBPLength.hwbp_1 = 0 :=
  addHWBP_execute_length_one 4096 HWBPLength.hwbp_8 HWBPState.empty (by decide)

/-- C6: the debug-control encoding packs, per slot `i`, one enable bit at bit
`2*i`, 2 bits of type at bits `16 + 4*i`, and 2 bits of length at bits
`18 + 4*i`; the type values are execute = 0, write = 1, access = 3 and the
length values are 1 byte = 0, 2 bytes = 1, 8 bytes = 2, 4 bytes = 3, each
fitting in 2 bits. -/
theorem encodeDR7_bit_exact (s : HWBPState) :
    (encodeDR7 s % 2 = enableBit s.d0 ∧
      encodeDR7 s / 4 % 2 = enableBit s.d1 ∧
      encodeDR7 s / 16 % 2 = enableBit s.d2 ∧
      encodeDR7 s / 64 % 2 = enableBit s.d3) ∧
    (encodeDR7 s / 65536 % 4 = typeBits s.d0 ∧
      encodeDR7 s / 262144 % 4 = lengthBits s.d0 ∧
      encodeDR7 s / 1048576 % 4 = typeBits s.d1 ∧
      encodeDR7 s / 4194304 % 4 = lengthBits s.d1 ∧
      encodeDR7 s / 16777216 % 4 = typeBits s.d2 ∧
      encodeDR7 s / 67108864 % 4 = lengthBits s.d2 ∧
      encodeDR7 s / 268435456 % 4 = typeBits s.d3 ∧
      encodeDR7 s / 1073741824 % 4 = lengthBits s.d3) ∧
    (HWBPType.val .hwbp_execute = 0 ∧ HWBPType.val .hwbp_write = 1 ∧
      HWBPType.val .hwbp_access = 3 ∧ HWBPLength.val .hwbp_1 = 0 ∧
      HWBPLength.val .hwbp_2 = 1 ∧ HWBPLength.val .hwbp_8 = 2 ∧
      HWBPLength.val .hwbp_4 = 3) ∧
    ((∀ t : HWBPType, HWBPType.val t < 4) ∧
      (∀ l : HWBPLength, HWBPLength.val l < 4)) := by
  have e0 := enableBit_le s.d0
  have e1 := enableBit_le s.d1
  have e2 := enableBit_le s.d2
  have e3 := enableBit_le s.d3
  have t0 := typeBits_le s.d0
  have t1 := typeBits_le s.d1
  have t2 := typeBits_le s.d2
  have t3 := typeBits_le s.d3
  have l0 := lengthBits_le s.d0
  have l1 := lengthBits_le s.d1
  have l2 := lengthBits_le s.d2
  have l3 := lengthBits_le s.d3
  unfold encodeDR7 slotField
  refine ⟨⟨?_, ?_, ?_, ?_⟩, ⟨?_, ?_, ?_, ?_, ?_, ?_, ?_, ?_⟩,
    ⟨rfl, rfl, rfl, rfl, rfl, rfl, rfl⟩, ?_, ?_⟩ <;>
    first
      | omega
      | exact fun x => by cases x <;> simp [HWBPType.val, HWBPLength.val]

/-- C8: `RemoveHWBP(ptr)` when no occupied slot stores an address equal to `ptr`
returns false and leaves all four slots — occupancy, address, type, and length —
unchanged. -/
theorem removeHWBPAddr_no_match_noop (ptr : Nat) (s : HWBPState)
    (h0 : matchesAddr s.d0 ptr = false) (h1 : matchesAddr s.d1 ptr = false)
    (h2 : matchesAddr s.d2 ptr = false) (h3 : matchesAddr s.d3 ptr = false) :
    Thread.RemoveHWBPAddr ptr s = (false, s) := by
  simp [Thread.RemoveHWBPAddr, h0, h1, h2, h3]

def c8state : HWBPState :=
  ⟨some ⟨4096, .hwbp_write, .hwbp_4⟩, none, some ⟨8192, .hwbp_access, .hwbp_2⟩,
    none⟩

/-- Witness for C8: removal of an address held by no slot of a concrete state. -/
theorem removeHWBPAddr_no_match_noop_witness :
    Thread.RemoveHWBPAddr 5 c8state = (false, c8state) :=
  removeHWBPAddr_no_match_noop 5 c8state (by decide) (by decide) (by decide)
    (by decide)

/-- C7: when `dontSuspend` is false and the underlying OS register operation
fails, both `GetContext` and `SetContext` return false, have issued a resume
call, and leave the thread's suspend count as it was found. -/
theorem context_failure_still_resumes (s : CtxOS) :
    ((Thread.GetContext false false s).1 = false ∧
      (Thread.GetContext false false s).2.resumeCalls = s.resumeCalls + 1 ∧
      (Thread.GetContext false false s).2.suspendCount = s.suspendCount) ∧
    ((Thread.SetContext false false s).1 = false ∧
      (Thread.SetContext false false s).2.resumeCalls = s.resumeCalls + 1 ∧
      (Thread.SetContext false false s).2.suspendCount = s.suspendCount) := by
  simp [Thread.GetContext, Thread.SetContext, CtxOS.suspend, CtxOS.resume]

end blackbone
